import Mathlib

/-!
A verification development for the extraction-to-publication pipeline of the
existential-crisis-alert-bot repository.  The JavaScript sources are embedded
shallowly: JS strings become `List Char`, the parsed Gemini response becomes a
`Json` value, and the stateful Twitter-thread publisher becomes a pure function
from a publish oracle (the outcome of each successive `tweet` call) to the list
of publish attempts it makes.  The namespace `IndexJs` embeds the first variant
in `src/index.js`; the namespace `Part001` embeds the variant in
`src/unnamed/part_001` (the one with hashtag normalization, top-N truncation
and the continue-past-failure publishing policy).
-/

abbrev Str := List Char

abbrev PostId := Nat

/-- Whitespace recognized by the model of `String.prototype.trim`
(restricted to the common ASCII whitespace characters). -/
def isJsWs (c : Char) : Bool :=
  c == ' ' || c == '\t' || c == '\n' || c == '\r'

def trimLeft (s : Str) : Str := s.dropWhile isJsWs

def trimRight (s : Str) : Str := (s.reverse.dropWhile isJsWs).reverse

/-- Model of `String.prototype.trim`. -/
def jsTrim (s : Str) : Str := trimRight (trimLeft s)

/-- Model of `String.prototype.startsWith`; the second argument is the pattern. -/
def strStartsWith : Str → Str → Bool
  | _, [] => true
  | [], _ :: _ => false
  | c :: s, p :: ps => c == p && strStartsWith s ps

/-- Model of `String.prototype.endsWith`. -/
def strEndsWith (s pat : Str) : Bool := strStartsWith s.reverse pat.reverse

/-- JSON values as produced by `JSON.parse`.  Numbers are restricted to
integers: no input considered in this development carries a fractional
number. -/
inductive Json where
  | null
  | bool (b : Bool)
  | num (n : Int)
  | str (s : Str)
  | arr (elems : List Json)
  | obj (fields : List (Str × Json))

def lookupField : List (Str × Json) → Str → Option Json
  | [], _ => none
  | (k', v) :: rest, k => if k' = k then some v else lookupField rest k

/-- Model of JS property read `o[k]`: `none` models `undefined`.
Property reads on non-objects yield `undefined` in the uses modelled here. -/
def Json.getField : Json → Str → Option Json
  | .obj fs, k => lookupField fs k
  | _, _ => none

def setFieldList : List (Str × Json) → Str → Json → List (Str × Json)
  | [], k, v => [(k, v)]
  | (k', v') :: rest, k, v =>
      if k' = k then (k, v) :: rest else (k', v') :: setFieldList rest k v

/-- Model of JS property write `o[k] = v` (a missing key is appended, an
existing key is overwritten in place, as in JS object semantics). -/
def Json.setField : Json → Str → Json → Json
  | .obj fs, k, v => .obj (setFieldList fs k v)
  | j, _, _ => j

/-- JS truthiness of a possibly-`undefined` value. -/
def jsTruthy : Option Json → Bool
  | none => false
  | some .null => false
  | some (.bool b) => b
  | some (.num n) => n != 0
  | some (.str s) => !s.isEmpty
  | some (.arr _) => true
  | some (.obj _) => true

/-- Model of `Array.isArray`. -/
def jsIsArray : Option Json → Bool
  | some (.arr _) => true
  | _ => false

def natToStr (n : Nat) : Str := Nat.toDigits 10 n

def intToStr (n : Int) : Str :=
  if n < 0 then '-' :: natToStr n.natAbs else natToStr n.toNat

def joinSep (sep : Str) : List Str → Str
  | [] => []
  | [s] => s
  | s :: rest => s ++ sep ++ joinSep sep rest

mutual

/-- JS string coercion (as in template literals and `+=`). -/
def Json.toJsString : Json → Str
  | .null => ("null").data
  | .bool true => ("true").data
  | .bool false => ("false").data
  | .num n => intToStr n
  | .str s => s
  | .arr xs => joinSep ((",").data) (jsonListToStrings xs)
  | .obj _ => ("[object Object]").data

def jsonListToStrings : List Json → List Str
  | [] => []
  | j :: rest => Json.toJsString j :: jsonListToStrings rest

end

/-- JS string coercion of a possibly-`undefined` value, as a template literal
renders it. -/
def jsToString : Option Json → Str
  | none => ("undefined").data
  | some j => j.toJsString

/-! ### A model of `JSON.parse`

Fuel-indexed recursive-descent parser.  Restrictions of the model relative to
the full builtin: numbers are integer literals only, and string escapes cover
the single-character escapes but not `\u` sequences.  Every concrete input
evaluated in this development is within the modelled fragment. -/

def isJsonDigit (c : Char) : Bool := '0' ≤ c && c ≤ '9'

def digitsToNat (ds : Str) : Nat :=
  ds.foldl (fun acc c => acc * 10 + (c.toNat - '0'.toNat)) 0

def escChar : Char → Option Char
  | '"' => some '"'
  | '\\' => some '\\'
  | '/' => some '/'
  | 'b' => some (Char.ofNat 8)
  | 'f' => some (Char.ofNat 12)
  | 'n' => some '\n'
  | 'r' => some '\r'
  | 't' => some '\t'
  | _ => none

/-- Parse the body of a JSON string literal (after the opening quote). -/
def parseStrChars : Nat → Str → Except Str (Str × Str)
  | 0, _ => .error (("fuel").data)
  | _ + 1, [] => .error (("unterminated string").data)
  | _ + 1, '"' :: rest => .ok ([], rest)
  | fuel + 1, '\\' :: rest =>
      match rest with
      | [] => .error (("unterminated escape").data)
      | e :: rest' =>
          match escChar e with
          | some c =>
              match parseStrChars fuel rest' with
              | .ok (s, r) => .ok (c :: s, r)
              | .error m => .error m
          | none => .error (("unsupported escape").data)
  | fuel + 1, c :: rest =>
      match parseStrChars fuel rest with
      | .ok (s, r) => .ok (c :: s, r)
      | .error m => .error m

def parseNum (s : Str) : Except Str (Json × Str) :=
  let (neg, s') := match s with
    | '-' :: rest => (true, rest)
    | _ => (false, s)
  let ds := s'.takeWhile isJsonDigit
  if ds.isEmpty then .error (("expected number").data)
  else
    let n : Int := Int.ofNat (digitsToNat ds)
    .ok (.num (if neg then -n else n), s'.drop ds.length)

def expectLit (lit : Str) (v : Json) (s : Str) : Except Str (Json × Str) :=
  if strStartsWith s lit then .ok (v, s.drop lit.length)
  else .error (("unexpected token").data)

mutual

def parseJsonVal : Nat → Str → Except Str (Json × Str)
  | 0, _ => .error (("fuel").data)
  | fuel + 1, s =>
      let s := s.dropWhile isJsWs
      match s with
      | [] => .error (("unexpected end of input").data)
      | c :: rest =>
          if c = 'n' then expectLit (("null").data) .null s
          else if c = 't' then expectLit (("true").data) (.bool true) s
          else if c = 'f' then expectLit (("false").data) (.bool false) s
          else if c = '"' then
            match parseStrChars fuel rest with
            | .ok (str, r) => .ok (.str str, r)
            | .error m => .error m
          else if c = '[' then parseArrItems fuel (rest.dropWhile isJsWs) true
          else if c = '\x7b' then parseObjItems fuel (rest.dropWhile isJsWs) true
          else parseNum s

/-- Parse array elements after `[` (`first` is true before any element). -/
def parseArrItems : Nat → Str → Bool → Except Str (Json × Str)
  | 0, _, _ => .error (("fuel").data)
  | fuel + 1, s, first =>
      match s with
      | ']' :: rest =>
          if first then .ok (.arr [], rest)
          else .error (("trailing comma").data)
      | _ =>
          match parseJsonVal fuel s with
          | .error m => .error m
          | .ok (v, r) =>
              let r := r.dropWhile isJsWs
              match r with
              | ']' :: rest => .ok (.arr [v], rest)
              | ',' :: rest =>
                  match parseArrItems fuel (rest.dropWhile isJsWs) false with
                  | .ok (.arr vs, r') => .ok (.arr (v :: vs), r')
                  | .ok _ => .error (("impossible").data)
                  | .error m => .error m
              | _ => .error (("expected comma or close bracket").data)

/-- Parse object members after the opening brace. -/
def parseObjItems : Nat → Str → Bool → Except Str (Json × Str)
  | 0, _, _ => .error (("fuel").data)
  | fuel + 1, s, first =>
      match s with
      | '\x7d' :: rest =>
          if first then .ok (.obj [], rest)
          else .error (("trailing comma").data)
      | '"' :: rest =>
          match parseStrChars fuel rest with
          | .error m => .error m
          | .ok (k, r) =>
              match r.dropWhile isJsWs with
              | ':' :: r' =>
                  match parseJsonVal fuel r' with
                  | .error m => .error m
                  | .ok (v, r'') =>
                      match r''.dropWhile isJsWs with
                      | '\x7d' :: rest' => .ok (.obj [(k, v)], rest')
                      | ',' :: rest' =>
                          match parseObjItems fuel (rest'.dropWhile isJsWs) false with
                          | .ok (.obj kvs, r3) => .ok (.obj ((k, v) :: kvs), r3)
                          | .ok _ => .error (("impossible").data)
                          | .error m => .error m
                      | _ => .error (("expected comma or close brace").data)
              | _ => .error (("expected colon").data)
      | _ => .error (("expected member key").data)

end

/-- Model of `JSON.parse`: parse one value and require only whitespace after it. -/
def jsonParse (text : Str) : Except Str Json :=
  match parseJsonVal (text.length + 1) text with
  | .ok (v, rest) =>
      if (rest.dropWhile isJsWs).isEmpty then .ok v
      else .error (("unexpected trailing characters").data)
  | .error m => .error m

/-! ### Response cleaning and the extractors

`cleanText` embeds the response-cleaning lines shared by every variant of
`extractAiNewsWithGemini`:
trim, strip a leading three-backticks-json marker (7 characters), strip a
trailing three-backticks marker (3 characters), trim again. -/

def fenceJson : Str := ("```json").data

def fenceTicks : Str := ("```").data

def cleanText (text : Str) : Str :=
  let cleaned := jsTrim text
  let cleaned := if strStartsWith cleaned fenceJson then cleaned.drop 7 else cleaned
  let cleaned :=
    if strEndsWith cleaned fenceTicks then cleaned.take (cleaned.length - 3) else cleaned
  jsTrim cleaned

def keyIntro : Str := ("intro").data

def keyOutro : Str := ("outro").data

def keyNewsItems : Str := ("news_items").data

def keyTitle : Str := ("title").data

def keyLink : Str := ("link").data

def keyHashtags : Str := ("hashtags").data

def parseFailMsg : Str := ("Failed to parse structured data from Gemini.").data

def shapeErrMsg : Str := ("Gemini response does not contain the expected structure.").data

def techmemeOrigin : Str := ("https://techmeme.com").data

def slashStr : Str := ("/").data

def hashStr : Str := ("#").data

/-- The relative-link rewrite applied to each item's `link` string: when the
link is truthy (non-empty) and starts with a slash, the techmeme origin is
prepended; identical in every variant. -/
def normalizeLink (link : Str) : Str :=
  if !link.isEmpty && strStartsWith link slashStr then techmemeOrigin ++ link else link

/-- The hashtag rewrite in `src/unnamed/part_001`: prepend `#` unless the tag
already starts with one. -/
def normalizeHashtag (hashtag : Str) : Str :=
  if strStartsWith hashtag hashStr then hashtag else '#' :: hashtag

/-- The message standing for a JS TypeError thrown by calling a method on a
value that lacks it (e.g. `startsWith` on a non-string, `map` on a
non-array). -/
def typeErrMsg : Str := ("TypeError").data

/-- One element of the `hashtags` array under the part_001 `map`:
`hashtag.startsWith("#")` throws a TypeError when the element is not a
string. -/
def normalizeHashtagElem : Json → Except Str Json
  | .str s => .ok (.str (normalizeHashtag s))
  | _ => .error typeErrMsg

/-- Map a possibly-throwing body over a list, stopping at the first error —
the behaviour of a JS `map`/`forEach` whose callback throws. -/
def mapExceptJson (f : Json → Except Str Json) : List Json → Except Str (List Json)
  | [] => .ok []
  | j :: rest =>
      match f j with
      | .error m => .error m
      | .ok v =>
          match mapExceptJson f rest with
          | .error m => .error m
          | .ok vs => .ok (v :: vs)

/-- The per-item link step, identical in every variant:
`if (item.link && item.link.startsWith("/")) item.link = ...`.
A falsy `link` (missing, empty, null, 0, false) short-circuits the condition
and the item is unchanged; a string link is rewritten by `normalizeLink`
(a no-op unless it starts with a slash); any other truthy link makes the
`startsWith` call throw a TypeError. -/
def normalizeItemLink (item : Json) : Except Str Json :=
  match item.getField keyLink with
  | some (.str s) => .ok (item.setField keyLink (.str (normalizeLink s)))
  | some v => if jsTruthy (some v) then .error typeErrMsg else .ok item
  | none => .ok item

/-- The condition under which `extractAiNewsWithGemini` logs
"News item at index ... has missing or invalid fields" for an item
(identical in every variant):
`!item.title || !item.link || !item.hashtags || !Array.isArray(item.hashtags)`. -/
def itemWarned (item : Json) : Bool :=
  !jsTruthy (item.getField keyTitle) || !jsTruthy (item.getField keyLink) ||
  !jsTruthy (item.getField keyHashtags) || !jsIsArray (item.getField keyHashtags)

namespace IndexJs

/-- Per-item normalization of the first `src/index.js` variant
(lines 400-417): only the relative-link rewrite (with its TypeError on a
truthy non-string link); the missing-field check just logs (`itemWarned`)
and changes nothing. -/
def normalizeItemJson (item : Json) : Except Str Json :=
  normalizeItemLink item

/-- The post-parse processing of `extractAiNewsWithGemini` in the first
`src/index.js` variant (lines 394-424): structural validation, per-item link
normalization (a TypeError in the forEach aborts it), and then
`newsItems.slice(0, 3);` whose result is discarded (`slice` does not mutate),
so the returned `news_items` list is NOT truncated. -/
def processAiNews (aiNews : Json) : Except Str Json :=
  if !jsTruthy (aiNews.getField keyIntro) || !jsTruthy (aiNews.getField keyOutro) ||
      !jsIsArray (aiNews.getField keyNewsItems) then
    .error shapeErrMsg
  else
    match aiNews.getField keyNewsItems with
    | some (.arr xs) =>
        match mapExceptJson normalizeItemJson xs with
        | .error m => .error m
        | .ok ys => .ok (aiNews.setField keyNewsItems (.arr ys))
    | _ => .error shapeErrMsg

end IndexJs

namespace Part001

/-- The constant `TWEET_LIMIT` of `src/unnamed/part_001`. -/
def TWEET_LIMIT : Nat := 3

/-- The hashtags step of part_001's per-item normalization:
`item.hashtags = item.hashtags?.map(normalize) || []`.
Optional chaining short-circuits only on null/undefined (then `|| []` assigns
the empty array); an array maps each element through `normalizeHashtagElem`
(throwing on non-string elements); any other non-nullish value — truthy or
not, e.g. a string or a number — has no `map` method, so the call throws a
TypeError. -/
def normalizeItemHashtags (item : Json) : Except Str Json :=
  match item.getField keyHashtags with
  | some (.arr hs) =>
      match mapExceptJson normalizeHashtagElem hs with
      | .error m => .error m
      | .ok hs' => .ok (item.setField keyHashtags (.arr hs'))
  | some .null => .ok (item.setField keyHashtags (.arr []))
  | none => .ok (item.setField keyHashtags (.arr []))
  | some _ => .error typeErrMsg

/-- Per-item normalization in `src/unnamed/part_001` (lines 242-264): the
relative-link rewrite followed by the hashtags rewrite; a TypeError in either
step aborts the enclosing forEach. -/
def normalizeItemJson (item : Json) : Except Str Json :=
  match normalizeItemLink item with
  | .error m => .error m
  | .ok item' => normalizeItemHashtags item'

/-- The post-parse processing of `extractAiNewsWithGemini` in
`src/unnamed/part_001` (lines 236-270): structural validation, per-item
normalization over ALL items (a TypeError aborts the extraction — the outer
catch rethrows it), then `newsItems = newsItems.slice(0, TWEET_LIMIT)` — here
the slice result IS assigned, so the list is truncated to the top 3. -/
def processAiNews (aiNews : Json) : Except Str Json :=
  if !jsTruthy (aiNews.getField keyIntro) || !jsTruthy (aiNews.getField keyOutro) ||
      !jsIsArray (aiNews.getField keyNewsItems) then
    .error shapeErrMsg
  else
    match aiNews.getField keyNewsItems with
    | some (.arr xs) =>
        match mapExceptJson normalizeItemJson xs with
        | .error m => .error m
        | .ok ys => .ok (aiNews.setField keyNewsItems (.arr (ys.take TWEET_LIMIT)))
    | _ => .error shapeErrMsg

/-- The parse stage of `extractAiNewsWithGemini` (lines 214-234): clean the
raw response text and run `JSON.parse` on it; a parse failure is rethrown as
"Failed to parse structured data from Gemini.". -/
def parseGeminiResponse (text : Str) : Except Str Json :=
  match jsonParse (cleanText text) with
  | .ok v => .ok v
  | .error _ => .error parseFailMsg

/-- The full response handling of `extractAiNewsWithGemini` in
`src/unnamed/part_001` as a function of the raw response text. -/
def extractFromText (text : Str) : Except Str Json :=
  match parseGeminiResponse text with
  | .ok aiNews => processAiNews aiNews
  | .error m => .error m

end Part001

/-! ### The thread publishers

`postNewsToTwitter` is embedded as a pure function of a publish oracle
`tw : Nat → Option PostId` giving the outcome of the n-th `tweet` API call of
the run (`some id` = created post id, `none` = the call throws).  The function
returns the list of publish attempts it makes, in order, together with a flag
that is true exactly when an exception escapes the function (a failure of the
intro or outro call, which sit outside the per-item try/catch).  The fixed
inter-post delays have no observable effect in this model. -/

structure Attempt where
  text : Str
  replyTo : Option PostId
  result : Option PostId

/-- Loop state of the item loop: attempts made, `previousTweetId`, `hasError`,
and the running count of `tweet` calls made so far. -/
structure LoopState where
  atts : List Attempt
  prev : Option PostId
  hasError : Bool
  calls : Nat

/-- The reply-chain shape the spec asks for: the first attempt replies to
`prev`, and each following attempt replies to the id created by the attempt
before it. -/
def chainOk : Option PostId → List Attempt → Bool
  | _, [] => true
  | prev, a :: rest => (a.replyTo == prev) && chainOk a.result rest

/-- The chaining invariant actually maintained by the code: each attempt
replies to the current `previousTweetId`, which is advanced only by a
successful publish. -/
def replyInv : Option PostId → List Attempt → Bool
  | _, [] => true
  | prev, a :: rest =>
      (a.replyTo == prev) && replyInv (if a.result.isSome then a.result else prev) rest

def newsItemsOf (aiNews : Json) : List Json :=
  match aiNews.getField keyNewsItems with
  | some (.arr xs) => xs
  | _ => []

def nlnl : Str := ("\n\n").data

def keyShortDescription : Str := ("short_description").data

/-- The fixed hashtag block appended to the intro tweet (identical in
`src/index.js` and `src/unnamed/part_001`). -/
def introHashtagBlock : Str :=
  ("\n\n#AI #ArtificialIntelligence #MachineLearning #LLM #GenerativeAI #OpenAI #Anthropic #GoogleAI #MetaAI #Gemini #Techmeme").data

/-- Model of `item.hashtags.join(" ")` (null elements render empty under
`Array.prototype.join`). -/
def jsArrayJoinSpace : Option Json → Str
  | some (.arr hs) =>
      joinSep ((" ").data) (hs.map (fun j => match j with | .null => [] | j => j.toJsString))
  | _ => []

def boldUpperDiff : Nat := 0x1D5D4 - 65

def boldLowerDiff : Nat := 0x1D5EE - 97

def boldDigitDiff : Nat := 0x1D7CE - 48

/-- The `translate` helper of `src/index.js` (the name is taken by Mathlib):
shift an alphanumeric character into the mathematical-bold Unicode block. -/
def translateChar (c : Char) : Char :=
  if 'A' ≤ c && c ≤ 'Z' then Char.ofNat (c.toNat + boldUpperDiff)
  else if 'a' ≤ c && c ≤ 'z' then Char.ofNat (c.toNat + boldLowerDiff)
  else if '0' ≤ c && c ≤ '9' then Char.ofNat (c.toNat + boldDigitDiff)
  else c

/-- Model of `title.replace(/[A-Za-z0-9]/g, translate)`: the regex only matches
alphanumerics, so other characters pass through unchanged. -/
def applyBoldReplace (s : Str) : Str := s.map translateChar

namespace Part001

def introTweetText (aiNews : Json) : Str :=
  jsToString (aiNews.getField keyIntro) ++ introHashtagBlock

/-- Item tweet body in `src/unnamed/part_001` (line 306): title, short
description and the joined hashtags; the thread-position suffix is commented
out in this variant and the link is not included. -/
def itemTweetText (item : Json) : Str :=
  jsToString (item.getField keyTitle) ++ nlnl ++
  jsToString (item.getField keyShortDescription) ++ nlnl ++
  jsArrayJoinSpace (item.getField keyHashtags)

/-- Outro tweet body in `src/unnamed/part_001` (line 354): just the outro text. -/
def outroTweetText (aiNews : Json) : Str :=
  jsToString (aiNews.getField keyOutro)

/-- The item loop of `postNewsToTwitter` in `src/unnamed/part_001`
(lines 303-349): on failure the catch block records `hasError` and the loop
continues with `previousTweetId` unchanged (the abort-on-error branch is
commented out in this variant). -/
def postItems (tw : Nat → Option PostId) :
    List Json → Nat → Option PostId → Bool → LoopState
  | [], calls, prev, e => ⟨[], prev, e, calls⟩
  | item :: rest, calls, prev, e =>
      let text := itemTweetText item
      match tw calls with
      | some id =>
          let s := postItems tw rest (calls + 1) (some id) e
          ⟨⟨text, prev, some id⟩ :: s.atts, s.prev, s.hasError, s.calls⟩
      | none =>
          let s := postItems tw rest (calls + 1) prev true
          ⟨⟨text, prev, none⟩ :: s.atts, s.prev, s.hasError, s.calls⟩

/-- Function `postNewsToTwitter` of `src/unnamed/part_001` (lines 280-369).  The intro
and outro `tweet` calls sit outside any try/catch, so their failures escape
(second component `true`); the outro is only attempted when `hasError` is
still false after the loop. -/
def postNewsToTwitter (tw : Nat → Option PostId) (aiNews : Json) :
    List Attempt × Bool :=
  let items := newsItemsOf aiNews
  if items.length == 0 then ([], false)
  else
    let introText := introTweetText aiNews
    match tw 0 with
    | none => ([⟨introText, none, none⟩], true)
    | some introId =>
        let s := postItems tw items 1 (some introId) false
        let atts := ⟨introText, none, some introId⟩ :: s.atts
        if s.hasError then (atts, false)
        else
          let outro := outroTweetText aiNews
          match tw s.calls with
          | none => (atts ++ [⟨outro, s.prev, none⟩], true)
          | some oid => (atts ++ [⟨outro, s.prev, some oid⟩], false)

end Part001

namespace IndexJs

def introTweetText (aiNews : Json) : Str :=
  jsToString (aiNews.getField keyIntro) ++ introHashtagBlock

/-- Item tweet body in the first `src/index.js` variant (lines 464-469):
bold-translated title, short description, link, joined hashtags, and a
"(i+1/total)" thread-position suffix when there is more than one item. -/
def itemTweetText (total i : Nat) (item : Json) : Str :=
  applyBoldReplace (jsToString (item.getField keyTitle)) ++ nlnl ++
  jsToString (item.getField keyShortDescription) ++ nlnl ++
  jsToString (item.getField keyLink) ++ nlnl ++
  jsArrayJoinSpace (item.getField keyHashtags) ++
  (if total > 1 then nlnl ++ ('(' :: (natToStr (i + 1) ++ ('/' :: (natToStr total ++ [')'])))) else [])

/-- Outro tweet body in `src/index.js` (lines 516-517): outro text plus the
fixed attribution handle. -/
def outroTweetText (aiNews : Json) : Str :=
  jsToString (aiNews.getField keyOutro) ++ ("\n\n@AI_Techie_Arun").data

/-- The item loop of `postNewsToTwitter` in the first `src/index.js` variant
(lines 460-513): on any failure the catch block sets `hasError` and `break`s
out of the loop, so no further item is attempted. -/
def postItems (tw : Nat → Option PostId) (total : Nat) :
    List Json → Nat → Nat → Option PostId → Bool → LoopState
  | [], _, calls, prev, e => ⟨[], prev, e, calls⟩
  | item :: rest, i, calls, prev, e =>
      let text := itemTweetText total i item
      match tw calls with
      | some id =>
          let s := postItems tw total rest (i + 1) (calls + 1) (some id) e
          ⟨⟨text, prev, some id⟩ :: s.atts, s.prev, s.hasError, s.calls⟩
      | none => ⟨[⟨text, prev, none⟩], prev, true, calls + 1⟩

/-- Function `postNewsToTwitter` of the first `src/index.js` variant (lines 439-532);
same shell as part_001's but with the abort-on-first-failure loop. -/
def postNewsToTwitter (tw : Nat → Option PostId) (aiNews : Json) :
    List Attempt × Bool :=
  let items := newsItemsOf aiNews
  if items.length == 0 then ([], false)
  else
    let introText := introTweetText aiNews
    match tw 0 with
    | none => ([⟨introText, none, none⟩], true)
    | some introId =>
        let s := postItems tw items.length items 0 1 (some introId) false
        let atts := ⟨introText, none, some introId⟩ :: s.atts
        if s.hasError then (atts, false)
        else
          let outro := outroTweetText aiNews
          match tw s.calls with
          | none => (atts ++ [⟨outro, s.prev, none⟩], true)
          | some oid => (atts ++ [⟨outro, s.prev, some oid⟩], false)

/-- The item texts of a run, for stating the publish order. -/
def itemTextsFrom (total : Nat) : Nat → List Json → List Str
  | _, [] => []
  | i, item :: rest => itemTweetText total i item :: itemTextsFrom total (i + 1) rest

end IndexJs

/-! ### Auxiliary definitions for the statements -/

/-- Predicate `anyCallFails tw calls n`: true when one of the `n` consecutive `tweet`
calls starting at call index `calls` fails. -/
def anyCallFails (tw : Nat → Option PostId) : Nat → Nat → Bool
  | _, 0 => false
  | calls, n + 1 => (tw calls).isNone || anyCallFails tw (calls + 1) n

/-- The opening code-fence marker of the claimed cleaning identity. -/
def fenceOpen : Str := ("```json\n").data

/-- The closing code-fence marker of the claimed cleaning identity. -/
def fenceClose : Str := ("\n```").data

/-- The backtick character. -/
def btick : Char := Char.ofNat 96

/-! ### Concrete inputs used by witnesses and counterexamples -/

def twAllOk : Nat → Option PostId := fun n => some (n + 100)

def twNone : Nat → Option PostId := fun _ => none

/-- Oracle whose second call (the first item of a run) fails. -/
def twFailSecond : Nat → Option PostId := fun n => if n == 1 then none else some (n + 100)

def itemA : Json :=
  .obj [(keyTitle, .str (("T1").data)), (keyShortDescription, .str (("d1").data)),
        (keyLink, .str (("/a").data)), (keyHashtags, .arr [.str (("x").data)])]

def itemB : Json :=
  .obj [(keyTitle, .str (("T2").data)), (keyShortDescription, .str (("d2").data)),
        (keyLink, .str (("https://e.com/b").data)), (keyHashtags, .arr [.str (("#y").data)])]

def itemC : Json :=
  .obj [(keyTitle, .str (("T3").data)), (keyShortDescription, .str (("d3").data)),
        (keyLink, .str (("https://e.com/c").data)), (keyHashtags, .arr [.str (("#z").data)])]

def itemD : Json :=
  .obj [(keyTitle, .str (("T4").data)), (keyShortDescription, .str (("d4").data)),
        (keyLink, .str (("https://e.com/d").data)), (keyHashtags, .arr [.str (("#w").data)])]

/-- An item with no `title` key: it triggers the missing-field warning. -/
def itemNoTitle : Json :=
  .obj [(keyLink, .str (("/b").data)), (keyHashtags, .arr [.str (("z").data)])]

/-- An item whose `hashtags` is the empty array: it misses the spec's
"non-empty hashtags sequence" requirement, yet the code's warning condition
does not fire on it (an empty array is truthy and is an array). -/
def itemEmptyTags : Json :=
  .obj [(keyTitle, .str (("T5").data)), (keyShortDescription, .str (("d5").data)),
        (keyLink, .str (("https://e.com/e").data)), (keyHashtags, .arr [])]

def bundle2 : Json :=
  .obj [(keyIntro, .str (("Hi").data)), (keyNewsItems, .arr [itemA, itemB]),
        (keyOutro, .str (("Bye").data))]

def bundle4 : Json :=
  .obj [(keyIntro, .str (("Hi").data)), (keyNewsItems, .arr [itemA, itemB, itemC, itemD]),
        (keyOutro, .str (("Bye").data))]

def bundleC5 : Json :=
  .obj [(keyIntro, .str (("Hi").data)), (keyNewsItems, .arr [itemNoTitle, itemEmptyTags]),
        (keyOutro, .str (("Bye").data))]

/-- The normalized form of `itemNoTitle`: link made absolute, hashtag
prefixed. -/
def itemNoTitleNorm : Json :=
  .obj [(keyLink, .str (("https://techmeme.com/b").data)),
        (keyHashtags, .arr [.str (("#z").data)])]

/-- An item whose `hashtags` is a string: the warning condition fires
(truthy but not an array), and then `item.hashtags?.map` throws a TypeError
in part_001, aborting the extraction. -/
def itemStrTags : Json :=
  .obj [(keyTitle, .str (("T6").data)), (keyShortDescription, .str (("d6").data)),
        (keyLink, .str (("https://e.com/f").data)), (keyHashtags, .str (("foo").data))]

/-- A structurally valid bundle containing `itemStrTags`. -/
def bundleC5bad : Json :=
  .obj [(keyIntro, .str (("Hi").data)), (keyNewsItems, .arr [itemStrTags]),
        (keyOutro, .str (("Bye").data))]

/-- A parsed response with no `outro` member. -/
def bundleNoOutro : Json :=
  .obj [(keyIntro, .str (("Hi").data)), (keyNewsItems, .arr [itemA])]

/-- A response body that is itself a fenced JSON document. -/
def fencedBody : Str := ("```json\ntrue\n```").data

/-! ### Helper lemmas: trimming and prefix checks -/

lemma dropWhile_idem (p : Char → Bool) (l : Str) :
    List.dropWhile p (List.dropWhile p l) = List.dropWhile p l := by
  induction l with
  | nil => rfl
  | cons c l ih =>
      by_cases h : p c
      · simp [List.dropWhile_cons, h, ih]
      · simp [List.dropWhile_cons, h]

lemma trimLeft_cons_ws (c : Char) (l : Str) (h : isJsWs c = true) :
    trimLeft (c :: l) = trimLeft l := by
  simp [trimLeft, List.dropWhile_cons, h]

lemma trimLeft_cons_not (c : Char) (l : Str) (h : isJsWs c = false) :
    trimLeft (c :: l) = c :: l := by
  simp [trimLeft, List.dropWhile_cons, h]

lemma trimLeft_append_or (l m : Str) :
    trimLeft (l ++ m) = trimLeft l ++ m ∨
    (trimLeft l = [] ∧ trimLeft (l ++ m) = trimLeft m) := by
  induction l with
  | nil => exact Or.inr ⟨rfl, rfl⟩
  | cons c l ih =>
      by_cases h : isJsWs c
      · rw [List.cons_append, trimLeft_cons_ws c _ h, trimLeft_cons_ws c _ h]
        exact ih
      · rw [List.cons_append, trimLeft_cons_not c _ (by simpa using h),
          trimLeft_cons_not c _ (by simpa using h)]
        exact Or.inl rfl

lemma trimRight_append_ws (l : Str) (c : Char) (h : isJsWs c = true) :
    trimRight (l ++ [c]) = trimRight l := by
  simp [trimRight, List.reverse_append, List.dropWhile_cons, h]

lemma trimRight_append_not (l : Str) (c : Char) (h : isJsWs c = false) :
    trimRight (l ++ [c]) = l ++ [c] := by
  simp [trimRight, List.reverse_append, List.dropWhile_cons, h]

lemma jsTrim_cons_ws (c : Char) (l : Str) (h : isJsWs c = true) :
    jsTrim (c :: l) = jsTrim l := by
  simp [jsTrim, trimLeft_cons_ws c l h]

lemma jsTrim_append_ws (l : Str) (c : Char) (h : isJsWs c = true) :
    jsTrim (l ++ [c]) = jsTrim l := by
  unfold jsTrim
  rcases trimLeft_append_or l [c] with heq | ⟨h1, h2⟩
  · rw [heq, trimRight_append_ws _ _ h]
  · rw [h2, h1]
    simp [trimLeft, List.dropWhile_cons, h, trimRight]

lemma jsTrim_cons_not_append_not (c d : Char) (l : Str)
    (hc : isJsWs c = false) (hd : isJsWs d = false) :
    jsTrim (c :: (l ++ [d])) = c :: (l ++ [d]) := by
  unfold jsTrim
  rw [trimLeft_cons_not _ _ hc, show c :: (l ++ [d]) = (c :: l) ++ [d] from rfl,
    trimRight_append_not _ _ hd]

lemma dropWhile_head_not (p : Char → Bool) (l : Str) (c : Char) (rest : Str)
    (h : List.dropWhile p l = c :: rest) : p c = false := by
  induction l with
  | nil => simp at h
  | cons a l ih =>
      by_cases ha : p a
      · rw [List.dropWhile_cons, if_pos ha] at h
        exact ih h
      · rw [List.dropWhile_cons, if_neg ha] at h
        cases h
        simpa using ha

lemma trimLeft_trimRight_trimLeft (x : Str) :
    trimLeft (trimRight (trimLeft x)) = trimRight (trimLeft x) := by
  cases h : trimLeft x with
  | nil => rfl
  | cons c u =>
      have hc : isJsWs c = false := dropWhile_head_not isJsWs x c u h
      show trimLeft (trimRight (c :: u)) = trimRight (c :: u)
      unfold trimRight
      rw [show (c :: u).reverse = u.reverse ++ [c] by simp]
      rcases trimLeft_append_or u.reverse [c] with heq | ⟨h1, h2⟩
      · rw [show List.dropWhile isJsWs (u.reverse ++ [c]) = trimLeft (u.reverse ++ [c]) from rfl,
          heq]
        rw [List.reverse_append]
        simp only [List.reverse_singleton, List.singleton_append]
        exact trimLeft_cons_not _ _ hc
      · rw [show List.dropWhile isJsWs (u.reverse ++ [c]) = trimLeft (u.reverse ++ [c]) from rfl,
          h2]
        rw [show trimLeft [c] = [c] from trimLeft_cons_not _ _ hc]
        simp [trimLeft_cons_not _ _ hc]

lemma trimRight_idem (x : Str) : trimRight (trimRight x) = trimRight x := by
  simp [trimRight, List.reverse_reverse, dropWhile_idem]

lemma jsTrim_idem (x : Str) : jsTrim (jsTrim x) = jsTrim x := by
  show trimRight (trimLeft (trimRight (trimLeft x))) = trimRight (trimLeft x)
  rw [trimLeft_trimRight_trimLeft, trimRight_idem]

lemma strStartsWith_nil (s : Str) : strStartsWith s [] = true := by
  cases s <;> rfl

lemma strStartsWith_append_self (p s : Str) : strStartsWith (p ++ s) p = true := by
  induction p with
  | nil => simpa using strStartsWith_nil s
  | cons c p ih => simp [strStartsWith, ih]

lemma strEndsWith_append_self (s p : Str) : strEndsWith (s ++ p) p = true := by
  simp [strEndsWith, List.reverse_append, strStartsWith_append_self]

lemma cleanText_fence (b : Str) :
    cleanText (fenceOpen ++ b ++ fenceClose) = jsTrim b := by
  have hS : fenceOpen ++ b ++ fenceClose
      = btick :: ((("``json\n").data ++ (b ++ ("\n``").data)) ++ [btick]) := by
    rw [show fenceOpen = btick :: ("``json\n").data from rfl,
      show fenceClose = ("\n``").data ++ [btick] from rfl]
    simp [List.append_assoc]
  have htrim : jsTrim (fenceOpen ++ b ++ fenceClose) = fenceOpen ++ b ++ fenceClose := by
    rw [hS, jsTrim_cons_not_append_not btick btick _ (by decide) (by decide)]
  have hS2 : fenceOpen ++ b ++ fenceClose = fenceJson ++ ('\n' :: (b ++ fenceClose)) := by
    rw [show fenceOpen = fenceJson ++ ['\n'] from rfl]
    simp [List.append_assoc]
  have hT : '\n' :: (b ++ fenceClose) = ('\n' :: (b ++ ['\n'])) ++ fenceTicks := by
    rw [show fenceClose = ['\n'] ++ fenceTicks from rfl]
    simp [List.append_assoc]
  simp only [cleanText]
  rw [htrim, hS2, strStartsWith_append_self]
  simp only [if_true]
  rw [show (7 : Nat) = fenceJson.length from rfl, List.drop_left]
  rw [hT, strEndsWith_append_self]
  simp only [if_true]
  rw [show (('\n' :: (b ++ ['\n'])) ++ fenceTicks).length - 3
      = ('\n' :: (b ++ ['\n'])).length by
        simp [show fenceTicks.length = 3 from rfl], List.take_left]
  rw [jsTrim_cons_ws _ _ (by decide), jsTrim_append_ws _ _ (by decide)]

lemma cleanText_unfenced (b : Str)
    (h1 : strStartsWith (jsTrim b) fenceJson = false)
    (h2 : strEndsWith (jsTrim b) fenceTicks = false) :
    cleanText b = jsTrim b := by
  simp only [cleanText]
  rw [h1]
  simp only [Bool.false_eq_true, if_false]
  rw [h2]
  simp only [Bool.false_eq_true, if_false]
  exact jsTrim_idem b

/-- C9 (counterexample): the claim "for every response body b,
parse(fence-open + b + fence-close) = parse(b)" fails when b is itself a
fenced document: the cleaner strips only one fence layer, so the fenced side
fails to parse while the bare side parses. -/
theorem spec_C9_counterexample :
    Part001.parseGeminiResponse (fenceOpen ++ fencedBody ++ fenceClose) ≠
      Part001.parseGeminiResponse fencedBody := by
  intro h
  have h1 : Part001.parseGeminiResponse (fenceOpen ++ fencedBody ++ fenceClose)
      = .error parseFailMsg := rfl
  have h2 : Part001.parseGeminiResponse fencedBody = .ok (.bool true) := rfl
  rw [h1, h2] at h
  exact Except.noConfusion h

/-- C9 (amended): for every response body whose trimmed form does not itself
start with the json code-fence marker nor end with a backtick fence, parsing
the fenced body yields the same result as parsing the bare body. -/
theorem spec_C9_fence_parse (b : Str)
    (h1 : strStartsWith (jsTrim b) fenceJson = false)
    (h2 : strEndsWith (jsTrim b) fenceTicks = false) :
    Part001.parseGeminiResponse (fenceOpen ++ b ++ fenceClose)
      = Part001.parseGeminiResponse b := by
  unfold Part001.parseGeminiResponse
  rw [cleanText_fence, cleanText_unfenced b h1 h2]

theorem spec_C9_fence_parse_witness :
    Part001.parseGeminiResponse (fenceOpen ++ ("true").data ++ fenceClose)
      = Part001.parseGeminiResponse (("true").data) :=
  spec_C9_fence_parse (("true").data) (by decide) (by decide)

/-- C6: link normalization rewrites a link starting with a slash to the
techmeme origin followed by the link, leaves any other link unchanged, and is
idempotent. -/
theorem spec_C6_link_normalization (x : Str) :
    (strStartsWith x slashStr = true → normalizeLink x = techmemeOrigin ++ x) ∧
    (strStartsWith x slashStr = false → normalizeLink x = x) ∧
    normalizeLink (normalizeLink x) = normalizeLink x := by
  have habs : ∀ y : Str, strStartsWith (techmemeOrigin ++ y) slashStr = false := by
    intro y
    rw [show techmemeOrigin = 'h' :: ("ttps://techmeme.com").data from rfl,
      show slashStr = ['/'] from rfl]
    simp [strStartsWith]
  have hpos : ∀ y : Str, strStartsWith y slashStr = true →
      normalizeLink y = techmemeOrigin ++ y := by
    intro y hy
    cases y with
    | nil => exact absurd hy (by decide)
    | cons c ys => simp [normalizeLink, hy, List.isEmpty]
  have hneg : ∀ y : Str, strStartsWith y slashStr = false → normalizeLink y = y := by
    intro y hy
    simp [normalizeLink, hy]
  refine ⟨hpos x, hneg x, ?_⟩
  cases hs : strStartsWith x slashStr
  · rw [hneg x hs, hneg x hs]
  · rw [hpos x hs, hneg _ (habs x)]

theorem spec_C6_link_normalization_witness :
    normalizeLink (("/a").data) = techmemeOrigin ++ ("/a").data :=
  (spec_C6_link_normalization (("/a").data)).1 (by decide)

/-- C7: every normalized hashtag starts with a hash character, and the two
example equations of the claim hold. -/
theorem spec_C7_hashtag_normalization :
    (∀ t : Str, strStartsWith (normalizeHashtag t) hashStr = true) ∧
    normalizeHashtag (("Foo").data) = ("#Foo").data ∧
    normalizeHashtag (("#Foo").data) = ("#Foo").data := by
  refine ⟨?_, by decide, by decide⟩
  intro t
  unfold normalizeHashtag
  cases hs : strStartsWith t hashStr
  · simp only [Bool.false_eq_true, if_false]
    rw [show hashStr = ['#'] from rfl]
    simp [strStartsWith, strStartsWith_nil]
  · simpa using hs

/-- C10: when the intro publish call fails, the error escapes the publisher
(the intro `tweet` call sits outside the per-item try/catch), no item or outro
post is attempted, and the run aborts.  Stated for both publisher variants. -/
theorem spec_C10_intro_failure_escapes (tw : Nat → Option PostId) (aiNews : Json)
    (hk : (newsItemsOf aiNews).length ≠ 0) (hfail : tw 0 = none) :
    Part001.postNewsToTwitter tw aiNews
      = ([⟨Part001.introTweetText aiNews, none, none⟩], true) ∧
    IndexJs.postNewsToTwitter tw aiNews
      = ([⟨IndexJs.introTweetText aiNews, none, none⟩], true) := by
  constructor
  · unfold Part001.postNewsToTwitter
    simp [hfail, hk]
  · unfold IndexJs.postNewsToTwitter
    simp [hfail, hk]

theorem spec_C10_intro_failure_escapes_witness :
    Part001.postNewsToTwitter twNone bundle2
      = ([⟨Part001.introTweetText bundle2, none, none⟩], true) ∧
    IndexJs.postNewsToTwitter twNone bundle2
      = ([⟨IndexJs.introTweetText bundle2, none, none⟩], true) :=
  spec_C10_intro_failure_escapes twNone bundle2 (by decide) rfl

/-- C4: a parsed response whose `intro`, `outro` or `news_items` member is
missing, empty or otherwise falsy (resp. not an array) makes the extractor's
structural validation throw the "expected structure" error, in both variants;
no bundle — partial or otherwise — is returned. -/
theorem spec_C4_shape_validation (aiNews : Json)
    (h : jsTruthy (aiNews.getField keyIntro) = false ∨
         jsTruthy (aiNews.getField keyOutro) = false ∨
         jsIsArray (aiNews.getField keyNewsItems) = false) :
    Part001.processAiNews aiNews = .error shapeErrMsg ∧
    IndexJs.processAiNews aiNews = .error shapeErrMsg := by
  unfold Part001.processAiNews IndexJs.processAiNews
  rcases h with h | h | h <;> simp [h]

theorem spec_C4_shape_validation_witness :
    Part001.processAiNews bundleNoOutro = .error shapeErrMsg ∧
    IndexJs.processAiNews bundleNoOutro = .error shapeErrMsg :=
  spec_C4_shape_validation bundleNoOutro (Or.inr (Or.inl rfl))

/-- C3 (code evaluated at the failing input): on a parsed response with four
items, the first `src/index.js` variant returns all four — the
`newsItems.slice(0, 3)` whose result is discarded truncates nothing — while
the part_001 variant, which assigns the slice, returns three. -/
theorem spec_C3_indexjs_truncation_bug :
    (IndexJs.processAiNews bundle4).toOption.map (fun j => (newsItemsOf j).length)
        = some 4 ∧
    (Part001.processAiNews bundle4).toOption.map (fun j => (newsItemsOf j).length)
        = some 3 :=
  ⟨rfl, rfl⟩

/-- C5 (counterexample): the claim fails at two concrete items that both miss
the "non-empty hashtags sequence" requirement.  First, an item whose
`hashtags` is the empty array is NOT logged — the warning condition does not
fire, since an empty array is truthy and is an array.  Second, an item whose
`hashtags` is the string "foo" IS logged, but is then neither kept nor
published: `item.hashtags?.map` throws a TypeError (optional chaining only
short-circuits on null/undefined), so part_001's extraction fails and no
bundle reaches the publisher. -/
theorem spec_C5_counterexample :
    (itemEmptyTags.getField keyHashtags = some (.arr []) ∧
     itemWarned itemEmptyTags = false) ∧
    (itemWarned itemStrTags = true ∧
     Part001.processAiNews bundleC5bad = .error typeErrMsg) :=
  ⟨⟨rfl, rfl⟩, ⟨rfl, rfl⟩⟩

/-! ### Loop lemmas for the publishers -/

lemma part001_postItems_texts (tw : Nat → Option PostId) :
    ∀ (items : List Json) (calls : Nat) (prev : Option PostId) (e : Bool),
      (Part001.postItems tw items calls prev e).atts.map (fun (a : Attempt) => a.text)
        = items.map Part001.itemTweetText := by
  intro items
  induction items with
  | nil => intro calls prev e; rfl
  | cons item rest ih =>
      intro calls prev e
      cases h : tw calls <;> simp [Part001.postItems, h, ih]

lemma part001_postItems_calls (tw : Nat → Option PostId) :
    ∀ (items : List Json) (calls : Nat) (prev : Option PostId) (e : Bool),
      (Part001.postItems tw items calls prev e).calls = calls + items.length := by
  intro items
  induction items with
  | nil => intro calls prev e; rfl
  | cons item rest ih =>
      intro calls prev e
      cases h : tw calls <;> simp [Part001.postItems, h, ih] <;> omega

lemma part001_postItems_hasError (tw : Nat → Option PostId) :
    ∀ (items : List Json) (calls : Nat) (prev : Option PostId) (e : Bool),
      (Part001.postItems tw items calls prev e).hasError
        = (e || anyCallFails tw calls items.length) := by
  intro items
  induction items with
  | nil => intro calls prev e; simp [Part001.postItems, anyCallFails]
  | cons item rest ih =>
      intro calls prev e
      cases h : tw calls <;>
        simp [Part001.postItems, h, ih, anyCallFails, Bool.or_assoc, Bool.or_comm]

lemma part001_postItems_replyInv (tw : Nat → Option PostId) :
    ∀ (items : List Json) (calls : Nat) (prev : Option PostId) (e : Bool)
      (rest : List Attempt),
      replyInv (Part001.postItems tw items calls prev e).prev rest = true →
      replyInv prev ((Part001.postItems tw items calls prev e).atts ++ rest) = true := by
  intro items
  induction items with
  | nil => intro calls prev e rest h; exact h
  | cons item rest' ih =>
      intro calls prev e rest h
      cases htw : tw calls
      · simp only [Part001.postItems, htw] at h ⊢
        simp [replyInv]
        exact ih (calls + 1) prev true rest h
      · simp only [Part001.postItems, htw] at h ⊢
        simp [replyInv]
        exact ih (calls + 1) _ e rest h

lemma part001_postItems_results (tw : Nat → Option PostId)
    (hsucc : ∀ n, (tw n).isSome = true) :
    ∀ (items : List Json) (calls : Nat) (prev : Option PostId) (e : Bool),
      ∀ a ∈ (Part001.postItems tw items calls prev e).atts, a.result.isSome = true := by
  intro items
  induction items with
  | nil => intro calls prev e a ha; simp [Part001.postItems] at ha
  | cons item rest ih =>
      intro calls prev e a ha
      cases htw : tw calls
      · have := hsucc calls; rw [htw] at this; simp at this
      · simp only [Part001.postItems, htw] at ha
        simp at ha
        rcases ha with ha | ha
        · rw [ha]; rfl
        · exact ih (calls + 1) _ e a ha

lemma part001_postItems_chain (tw : Nat → Option PostId)
    (hsucc : ∀ n, (tw n).isSome = true) :
    ∀ (items : List Json) (calls : Nat) (prev : Option PostId) (e : Bool)
      (rest : List Attempt),
      chainOk (Part001.postItems tw items calls prev e).prev rest = true →
      chainOk prev ((Part001.postItems tw items calls prev e).atts ++ rest) = true := by
  intro items
  induction items with
  | nil => intro calls prev e rest h; exact h
  | cons item rest' ih =>
      intro calls prev e rest h
      cases htw : tw calls
      · have := hsucc calls; rw [htw] at this; simp at this
      · simp only [Part001.postItems, htw] at h ⊢
        simp [chainOk]
        exact ih (calls + 1) _ e rest h

lemma anyCallFails_eq_false (tw : Nat → Option PostId)
    (hsucc : ∀ n, (tw n).isSome = true) :
    ∀ (n calls : Nat), anyCallFails tw calls n = false := by
  intro n
  induction n with
  | zero => intro calls; rfl
  | succ n ih =>
      intro calls
      cases htw : tw calls
      · have := hsucc calls; rw [htw] at this; simp at this
      · simp [anyCallFails, htw, ih]

lemma anyCallFails_of_fail (tw : Nat → Option PostId) :
    ∀ (n calls j : Nat), j < n → tw (calls + j) = none →
      anyCallFails tw calls n = true := by
  intro n
  induction n with
  | zero => intro calls j hj; omega
  | succ n ih =>
      intro calls j hj hfail
      cases j with
      | zero => simp at hfail; simp [anyCallFails, hfail]
      | succ j' =>
          have : tw (calls + 1 + j') = none := by
            rw [show calls + 1 + j' = calls + (j' + 1) by omega]; exact hfail
          simp [anyCallFails, ih (calls + 1) j' (by omega) this]

lemma indexjs_postItems_texts (tw : Nat → Option PostId) (total : Nat)
    (hsucc : ∀ n, (tw n).isSome = true) :
    ∀ (items : List Json) (i calls : Nat) (prev : Option PostId) (e : Bool),
      (IndexJs.postItems tw total items i calls prev e).atts.map
          (fun (a : Attempt) => a.text)
        = IndexJs.itemTextsFrom total i items := by
  intro items
  induction items with
  | nil => intro i calls prev e; rfl
  | cons item rest ih =>
      intro i calls prev e
      cases htw : tw calls
      · have := hsucc calls; rw [htw] at this; simp at this
      · simp [IndexJs.postItems, htw, ih, IndexJs.itemTextsFrom]

lemma indexjs_postItems_calls (tw : Nat → Option PostId) (total : Nat)
    (hsucc : ∀ n, (tw n).isSome = true) :
    ∀ (items : List Json) (i calls : Nat) (prev : Option PostId) (e : Bool),
      (IndexJs.postItems tw total items i calls prev e).calls = calls + items.length := by
  intro items
  induction items with
  | nil => intro i calls prev e; rfl
  | cons item rest ih =>
      intro i calls prev e
      cases htw : tw calls
      · have := hsucc calls; rw [htw] at this; simp at this
      · simp [IndexJs.postItems, htw, ih]; omega

lemma indexjs_postItems_hasError (tw : Nat → Option PostId) (total : Nat)
    (hsucc : ∀ n, (tw n).isSome = true) :
    ∀ (items : List Json) (i calls : Nat) (prev : Option PostId) (e : Bool),
      (IndexJs.postItems tw total items i calls prev e).hasError = e := by
  intro items
  induction items with
  | nil => intro i calls prev e; rfl
  | cons item rest ih =>
      intro i calls prev e
      cases htw : tw calls
      · have := hsucc calls; rw [htw] at this; simp at this
      · simp [IndexJs.postItems, htw, ih]

lemma indexjs_postItems_results (tw : Nat → Option PostId) (total : Nat)
    (hsucc : ∀ n, (tw n).isSome = true) :
    ∀ (items : List Json) (i calls : Nat) (prev : Option PostId) (e : Bool),
      ∀ a ∈ (IndexJs.postItems tw total items i calls prev e).atts,
        a.result.isSome = true := by
  intro items
  induction items with
  | nil => intro i calls prev e a ha; simp [IndexJs.postItems] at ha
  | cons item rest ih =>
      intro i calls prev e a ha
      cases htw : tw calls
      · have := hsucc calls; rw [htw] at this; simp at this
      · simp only [IndexJs.postItems, htw] at ha
        simp at ha
        rcases ha with ha | ha
        · rw [ha]; rfl
        · exact ih (i + 1) (calls + 1) _ e a ha

lemma indexjs_postItems_chain (tw : Nat → Option PostId) (total : Nat)
    (hsucc : ∀ n, (tw n).isSome = true) :
    ∀ (items : List Json) (i calls : Nat) (prev : Option PostId) (e : Bool)
      (rest : List Attempt),
      chainOk (IndexJs.postItems tw total items i calls prev e).prev rest = true →
      chainOk prev ((IndexJs.postItems tw total items i calls prev e).atts ++ rest)
        = true := by
  intro items
  induction items with
  | nil => intro i calls prev e rest h; exact h
  | cons item rest' ih =>
      intro i calls prev e rest h
      cases htw : tw calls
      · have := hsucc calls; rw [htw] at this; simp at this
      · simp only [IndexJs.postItems, htw] at h ⊢
        simp [chainOk]
        exact ih (i + 1) (calls + 1) _ e rest h

lemma itemTextsFrom_length (total : Nat) :
    ∀ (items : List Json) (i : Nat),
      (IndexJs.itemTextsFrom total i items).length = items.length := by
  intro items
  induction items with
  | nil => intro i; rfl
  | cons item rest ih => intro i; simp [IndexJs.itemTextsFrom, ih]

lemma part001_run_all_success (tw : Nat → Option PostId) (aiNews : Json)
    (hsucc : ∀ n, (tw n).isSome = true)
    (hk : (newsItemsOf aiNews).length ≠ 0) :
    ((Part001.postNewsToTwitter tw aiNews).1).map (fun (a : Attempt) => a.text)
      = Part001.introTweetText aiNews :: ((newsItemsOf aiNews).map Part001.itemTweetText
          ++ [Part001.outroTweetText aiNews]) ∧
    (Part001.postNewsToTwitter tw aiNews).2 = false ∧
    (∀ a ∈ (Part001.postNewsToTwitter tw aiNews).1, a.result.isSome = true) ∧
    chainOk none ((Part001.postNewsToTwitter tw aiNews).1) = true := by
  obtain ⟨introId, h0⟩ : ∃ id, tw 0 = some id := by
    cases h : tw 0
    · have := hsucc 0; rw [h] at this; simp at this
    · exact ⟨_, rfl⟩
  have hk0 : ((newsItemsOf aiNews).length == 0) = false := by
    simp only [beq_eq_false_iff_ne, ne_eq]; exact hk
  have herr : (Part001.postItems tw (newsItemsOf aiNews) 1 (some introId) false).hasError
      = false := by
    rw [part001_postItems_hasError]
    simp [anyCallFails_eq_false tw hsucc]
  obtain ⟨oid, hout⟩ : ∃ id,
      tw (Part001.postItems tw (newsItemsOf aiNews) 1 (some introId) false).calls
        = some id := by
    cases h : tw (Part001.postItems tw (newsItemsOf aiNews) 1 (some introId) false).calls
    · have := hsucc (Part001.postItems tw (newsItemsOf aiNews) 1 (some introId) false).calls
      rw [h] at this; simp at this
    · exact ⟨_, rfl⟩
  have hrun : Part001.postNewsToTwitter tw aiNews
      = (⟨Part001.introTweetText aiNews, none, some introId⟩ ::
          ((Part001.postItems tw (newsItemsOf aiNews) 1 (some introId) false).atts
            ++ [⟨Part001.outroTweetText aiNews,
                 (Part001.postItems tw (newsItemsOf aiNews) 1 (some introId) false).prev,
                 some oid⟩]), false) := by
    unfold Part001.postNewsToTwitter
    simp only [hk0, Bool.false_eq_true, if_false, h0, herr, hout]
    simp
  refine ⟨?_, ?_, ?_, ?_⟩
  · rw [hrun]
    simp [part001_postItems_texts]
  · rw [hrun]
  · intro a ha
    rw [hrun] at ha
    simp at ha
    rcases ha with ha | ha | ha
    · rw [ha]; rfl
    · exact part001_postItems_results tw hsucc _ 1 _ false a ha
    · rw [ha]; rfl
  · rw [hrun]
    simp only [chainOk, List.cons_append]
    have hchain := part001_postItems_chain tw hsucc (newsItemsOf aiNews) 1 (some introId)
      false [⟨Part001.outroTweetText aiNews,
              (Part001.postItems tw (newsItemsOf aiNews) 1 (some introId) false).prev,
              some oid⟩] (by simp [chainOk])
    simp [hchain]

lemma indexjs_run_all_success (tw : Nat → Option PostId) (aiNews : Json)
    (hsucc : ∀ n, (tw n).isSome = true)
    (hk : (newsItemsOf aiNews).length ≠ 0) :
    ((IndexJs.postNewsToTwitter tw aiNews).1).map (fun (a : Attempt) => a.text)
      = IndexJs.introTweetText aiNews ::
          (IndexJs.itemTextsFrom (newsItemsOf aiNews).length 0 (newsItemsOf aiNews)
            ++ [IndexJs.outroTweetText aiNews]) ∧
    (IndexJs.postNewsToTwitter tw aiNews).2 = false ∧
    (∀ a ∈ (IndexJs.postNewsToTwitter tw aiNews).1, a.result.isSome = true) ∧
    chainOk none ((IndexJs.postNewsToTwitter tw aiNews).1) = true := by
  obtain ⟨introId, h0⟩ : ∃ id, tw 0 = some id := by
    cases h : tw 0
    · have := hsucc 0; rw [h] at this; simp at this
    · exact ⟨_, rfl⟩
  have hk0 : ((newsItemsOf aiNews).length == 0) = false := by
    simp only [beq_eq_false_iff_ne, ne_eq]; exact hk
  have herr : (IndexJs.postItems tw (newsItemsOf aiNews).length (newsItemsOf aiNews)
      0 1 (some introId) false).hasError = false :=
    indexjs_postItems_hasError tw _ hsucc _ 0 1 _ false
  obtain ⟨oid, hout⟩ : ∃ id,
      tw (IndexJs.postItems tw (newsItemsOf aiNews).length (newsItemsOf aiNews)
          0 1 (some introId) false).calls = some id := by
    cases h : tw (IndexJs.postItems tw (newsItemsOf aiNews).length (newsItemsOf aiNews)
        0 1 (some introId) false).calls
    · have := hsucc (IndexJs.postItems tw (newsItemsOf aiNews).length (newsItemsOf aiNews)
        0 1 (some introId) false).calls
      rw [h] at this; simp at this
    · exact ⟨_, rfl⟩
  have hrun : IndexJs.postNewsToTwitter tw aiNews
      = (⟨IndexJs.introTweetText aiNews, none, some introId⟩ ::
          ((IndexJs.postItems tw (newsItemsOf aiNews).length (newsItemsOf aiNews)
              0 1 (some introId) false).atts
            ++ [⟨IndexJs.outroTweetText aiNews,
                 (IndexJs.postItems tw (newsItemsOf aiNews).length (newsItemsOf aiNews)
                   0 1 (some introId) false).prev,
                 some oid⟩]), false) := by
    unfold IndexJs.postNewsToTwitter
    simp only [hk0, Bool.false_eq_true, if_false, h0, herr, hout]
    simp
  refine ⟨?_, ?_, ?_, ?_⟩
  · rw [hrun]
    simp [indexjs_postItems_texts tw _ hsucc]
  · rw [hrun]
  · intro a ha
    rw [hrun] at ha
    simp at ha
    rcases ha with ha | ha | ha
    · rw [ha]; rfl
    · exact indexjs_postItems_results tw _ hsucc _ 0 1 _ false a ha
    · rw [ha]; rfl
  · rw [hrun]
    simp only [chainOk, List.cons_append]
    have hchain := indexjs_postItems_chain tw (newsItemsOf aiNews).length hsucc
      (newsItemsOf aiNews) 0 1 (some introId)
      false [⟨IndexJs.outroTweetText aiNews,
              (IndexJs.postItems tw (newsItemsOf aiNews).length (newsItemsOf aiNews)
                0 1 (some introId) false).prev,
              some oid⟩] (by simp [chainOk])
    simp [hchain]

/-- C1: on a bundle with k ≥ 1 items and an oracle on which every publish call
succeeds, both publisher variants make exactly k + 2 posts — the intro first
(no reply target), then the k items in list order, then the outro — every call
succeeds, and each post after the first replies to the id created by the
immediately preceding post. -/
theorem spec_C1_thread_shape (tw : Nat → Option PostId) (aiNews : Json)
    (hsucc : ∀ n, (tw n).isSome = true)
    (hk : 1 ≤ (newsItemsOf aiNews).length) :
    (Part001.postNewsToTwitter tw aiNews).2 = false ∧
    ((Part001.postNewsToTwitter tw aiNews).1).length = (newsItemsOf aiNews).length + 2 ∧
    ((Part001.postNewsToTwitter tw aiNews).1).map (fun (a : Attempt) => a.text)
      = Part001.introTweetText aiNews :: ((newsItemsOf aiNews).map Part001.itemTweetText
          ++ [Part001.outroTweetText aiNews]) ∧
    (∀ a ∈ (Part001.postNewsToTwitter tw aiNews).1, a.result.isSome = true) ∧
    chainOk none ((Part001.postNewsToTwitter tw aiNews).1) = true ∧
    (IndexJs.postNewsToTwitter tw aiNews).2 = false ∧
    ((IndexJs.postNewsToTwitter tw aiNews).1).length = (newsItemsOf aiNews).length + 2 ∧
    ((IndexJs.postNewsToTwitter tw aiNews).1).map (fun (a : Attempt) => a.text)
      = IndexJs.introTweetText aiNews ::
          (IndexJs.itemTextsFrom (newsItemsOf aiNews).length 0 (newsItemsOf aiNews)
            ++ [IndexJs.outroTweetText aiNews]) ∧
    (∀ a ∈ (IndexJs.postNewsToTwitter tw aiNews).1, a.result.isSome = true) ∧
    chainOk none ((IndexJs.postNewsToTwitter tw aiNews).1) = true := by
  have hk' : (newsItemsOf aiNews).length ≠ 0 := by omega
  obtain ⟨ht1, he1, hr1, hc1⟩ := part001_run_all_success tw aiNews hsucc hk'
  obtain ⟨ht2, he2, hr2, hc2⟩ := indexjs_run_all_success tw aiNews hsucc hk'
  refine ⟨he1, ?_, ht1, hr1, hc1, he2, ?_, ht2, hr2, hc2⟩
  · have := congrArg List.length ht1
    simp at this
    omega
  · have := congrArg List.length ht2
    simp [itemTextsFrom_length] at this
    omega

theorem spec_C1_thread_shape_witness :
    ((Part001.postNewsToTwitter twAllOk bundle2).1).length
        = (newsItemsOf bundle2).length + 2 ∧
    chainOk none ((Part001.postNewsToTwitter twAllOk bundle2).1) = true ∧
    ((IndexJs.postNewsToTwitter twAllOk bundle2).1).length
        = (newsItemsOf bundle2).length + 2 ∧
    chainOk none ((IndexJs.postNewsToTwitter twAllOk bundle2).1) = true := by
  obtain ⟨-, h2, -, -, h5, -, h7, -, -, h10⟩ :=
    spec_C1_thread_shape twAllOk bundle2 (fun n => rfl) (by decide)
  exact ⟨h2, h5, h7, h10⟩

/-- C2: under the continue-past-failure policy of part_001, if the intro
succeeds and some item's publish call fails, the run completes normally but
makes only 1 + k attempts — the intro and the k items — so the outro is never
published. -/
theorem spec_C2_outro_suppressed (tw : Nat → Option PostId) (aiNews : Json)
    (introId : PostId) (h0 : tw 0 = some introId)
    (j : Nat) (hj : j < (newsItemsOf aiNews).length)
    (hfail : tw (1 + j) = none) :
    (Part001.postNewsToTwitter tw aiNews).2 = false ∧
    ((Part001.postNewsToTwitter tw aiNews).1).length = 1 + (newsItemsOf aiNews).length ∧
    ((Part001.postNewsToTwitter tw aiNews).1).map (fun (a : Attempt) => a.text)
      = Part001.introTweetText aiNews :: (newsItemsOf aiNews).map Part001.itemTweetText := by
  have hk0 : ((newsItemsOf aiNews).length == 0) = false := by
    simp only [beq_eq_false_iff_ne, ne_eq]; omega
  have herr : (Part001.postItems tw (newsItemsOf aiNews) 1 (some introId) false).hasError
      = true := by
    rw [part001_postItems_hasError]
    simp [anyCallFails_of_fail tw (newsItemsOf aiNews).length 1 j hj hfail]
  have hrun : Part001.postNewsToTwitter tw aiNews
      = (⟨Part001.introTweetText aiNews, none, some introId⟩ ::
          (Part001.postItems tw (newsItemsOf aiNews) 1 (some introId) false).atts,
         false) := by
    unfold Part001.postNewsToTwitter
    simp only [hk0, Bool.false_eq_true, if_false, h0, herr, if_true]
  refine ⟨by rw [hrun], ?_, ?_⟩
  · rw [hrun]
    have := congrArg List.length
      (part001_postItems_texts tw (newsItemsOf aiNews) 1 (some introId) false)
    simp at this ⊢
    omega
  · rw [hrun]
    simp [part001_postItems_texts]

theorem spec_C2_outro_suppressed_witness :
    (Part001.postNewsToTwitter twFailSecond bundle2).2 = false ∧
    ((Part001.postNewsToTwitter twFailSecond bundle2).1).length
        = 1 + (newsItemsOf bundle2).length ∧
    ((Part001.postNewsToTwitter twFailSecond bundle2).1).map
        (fun (a : Attempt) => a.text)
      = Part001.introTweetText bundle2
          :: (newsItemsOf bundle2).map Part001.itemTweetText :=
  spec_C2_outro_suppressed twFailSecond bundle2 100 rfl 0 (by decide) rfl

lemma part001_run_replyInv (tw : Nat → Option PostId) (aiNews : Json) :
    replyInv none ((Part001.postNewsToTwitter tw aiNews).1) = true := by
  unfold Part001.postNewsToTwitter
  cases hk : ((newsItemsOf aiNews).length == 0) with
  | true => simp [hk, replyInv]
  | false =>
    cases h0 : tw 0 with
    | none => simp [hk, h0, replyInv]
    | some introId =>
      cases herr : (Part001.postItems tw (newsItemsOf aiNews) 1 (some introId)
          false).hasError with
      | true =>
          simp only [hk, Bool.false_eq_true, if_false, h0, herr, if_true]
          simp only [replyInv, Option.isSome_some, if_true]
          have h := part001_postItems_replyInv tw (newsItemsOf aiNews) 1 (some introId)
            false [] (by rfl)
          simp at h
          simp [h]
      | false =>
          cases hout : tw (Part001.postItems tw (newsItemsOf aiNews) 1 (some introId)
              false).calls with
          | none =>
              simp only [hk, Bool.false_eq_true, if_false, h0, herr, hout]
              simp only [replyInv, Option.isSome_some, if_true, List.cons_append]
              have h := part001_postItems_replyInv tw (newsItemsOf aiNews) 1 (some introId)
                false [⟨Part001.outroTweetText aiNews,
                       (Part001.postItems tw (newsItemsOf aiNews) 1 (some introId)
                         false).prev, none⟩] (by simp [replyInv])
              simp [h]
          | some oid =>
              simp only [hk, Bool.false_eq_true, if_false, h0, herr, hout]
              simp only [replyInv, Option.isSome_some, if_true, List.cons_append]
              have h := part001_postItems_replyInv tw (newsItemsOf aiNews) 1 (some introId)
                false [⟨Part001.outroTweetText aiNews,
                       (Part001.postItems tw (newsItemsOf aiNews) 1 (some introId)
                         false).prev, some oid⟩] (by simp [replyInv])
              simp [h]

lemma replyInv_frame :
    ∀ (l : List Attempt) (prev : Option PostId), replyInv prev l = true →
      ∀ (j : Nat) (hj : j + 1 < l.length),
        (l.get ⟨j, Nat.lt_of_succ_lt hj⟩).result = none →
        (l.get ⟨j + 1, hj⟩).replyTo = (l.get ⟨j, Nat.lt_of_succ_lt hj⟩).replyTo := by
  intro l
  induction l with
  | nil => intro prev _ j hj; simp at hj
  | cons a l ih =>
      intro prev hinv j hj hres
      simp only [replyInv, Bool.and_eq_true] at hinv
      obtain ⟨h1, h2⟩ := hinv
      cases j with
      | zero =>
          cases l with
          | nil => simp at hj
          | cons b l' =>
              have hres' : a.result = none := hres
              rw [hres'] at h2
              simp only [Option.isSome_none, Bool.false_eq_true, if_false] at h2
              simp only [replyInv, Bool.and_eq_true] at h2
              show b.replyTo = a.replyTo
              rw [eq_of_beq h1, eq_of_beq h2.1]
      | succ j' =>
          have hj' : j' + 1 < l.length := by simpa using hj
          exact ih _ h2 j' hj' hres

/-- C8: in a part_001 publisher run, a failed attempt leaves
`previousTweetId` unchanged: whenever attempt j fails, the following attempt
replies to exactly what attempt j replied to — i.e. chains off the last
successful post, not the failed one. -/
theorem spec_C8_prev_unchanged_on_failure (tw : Nat → Option PostId) (aiNews : Json)
    (j : Nat) (hj : j + 1 < ((Part001.postNewsToTwitter tw aiNews).1).length)
    (hres : (((Part001.postNewsToTwitter tw aiNews).1).get
        ⟨j, Nat.lt_of_succ_lt hj⟩).result = none) :
    (((Part001.postNewsToTwitter tw aiNews).1).get ⟨j + 1, hj⟩).replyTo
      = (((Part001.postNewsToTwitter tw aiNews).1).get
          ⟨j, Nat.lt_of_succ_lt hj⟩).replyTo :=
  replyInv_frame ((Part001.postNewsToTwitter tw aiNews).1) none
    (part001_run_replyInv tw aiNews) j hj hres

theorem spec_C8_prev_unchanged_on_failure_witness :
    (((Part001.postNewsToTwitter twFailSecond bundle2).1).get ⟨2, by decide⟩).replyTo
      = (((Part001.postNewsToTwitter twFailSecond bundle2).1).get
          ⟨1, by decide⟩).replyTo :=
  spec_C8_prev_unchanged_on_failure twFailSecond bundle2 1 (by decide) (by decide)

lemma lookupField_setFieldList (fs : List (Str × Json)) (k : Str) (v : Json) :
    lookupField (setFieldList fs k v) k = some v := by
  induction fs with
  | nil => simp [setFieldList, lookupField]
  | cons p rest ih =>
      obtain ⟨k', v'⟩ := p
      by_cases h : k' = k
      · simp [setFieldList, lookupField, h]
      · simp [setFieldList, lookupField, h, ih]

lemma getField_some_obj (j : Json) (k : Str) (v : Json) (h : j.getField k = some v) :
    ∃ fs, j = .obj fs := by
  cases j <;> first
    | exact ⟨_, rfl⟩
    | simp [Json.getField] at h

lemma newsItemsOf_setField (fs : List (Str × Json)) (ys : List Json) :
    newsItemsOf ((Json.obj fs).setField keyNewsItems (.arr ys)) = ys := by
  simp [newsItemsOf, Json.setField, Json.getField, lookupField_setFieldList]

lemma mapExceptJson_ok_length (f : Json → Except Str Json) :
    ∀ (xs ys : List Json), mapExceptJson f xs = .ok ys → ys.length = xs.length := by
  intro xs
  induction xs with
  | nil =>
      intro ys h
      simp [mapExceptJson] at h
      rw [← h]
  | cons x rest ih =>
      intro ys h
      simp only [mapExceptJson] at h
      cases hf : f x with
      | error m => rw [hf] at h; simp at h
      | ok v =>
          rw [hf] at h
          cases hr : mapExceptJson f rest with
          | error m => rw [hr] at h; simp at h
          | ok vs =>
              rw [hr] at h
              simp at h
              rw [← h]
              simp [ih vs hr]

lemma mapExceptJson_ok_get (f : Json → Except Str Json) :
    ∀ (xs ys : List Json), mapExceptJson f xs = .ok ys →
      ∀ (j : Nat) (hx : j < xs.length) (hy : j < ys.length),
        f (xs.get ⟨j, hx⟩) = .ok (ys.get ⟨j, hy⟩) := by
  intro xs
  induction xs with
  | nil => intro ys h j hx hy; simp at hx
  | cons x rest ih =>
      intro ys h j hx hy
      simp only [mapExceptJson] at h
      cases hf : f x with
      | error m => rw [hf] at h; simp at h
      | ok v =>
          rw [hf] at h
          cases hr : mapExceptJson f rest with
          | error m => rw [hr] at h; simp at h
          | ok vs =>
              rw [hr] at h
              simp at h
              subst h
              cases j with
              | zero => exact hf
              | succ j' => exact ih vs hr j' (by simpa using hx) (by simpa using hy)

lemma part001_processAiNews_ok (aiNews : Json) (xs ys : List Json)
    (hitems : aiNews.getField keyNewsItems = some (.arr xs))
    (hintro : jsTruthy (aiNews.getField keyIntro) = true)
    (houtro : jsTruthy (aiNews.getField keyOutro) = true)
    (hnorm : mapExceptJson Part001.normalizeItemJson xs = .ok ys) :
    Part001.processAiNews aiNews
      = .ok (aiNews.setField keyNewsItems (.arr (ys.take Part001.TWEET_LIMIT))) := by
  unfold Part001.processAiNews
  rw [hitems]
  simp [hintro, houtro, jsIsArray, hnorm]

/-- C5 (amended): an item with a falsy title, link or hashtags field, or with
non-array hashtags, is logged with a warning (an item with an empty hashtags
array is not logged).  Whenever part_001's per-item normalization completes
without a TypeError — the hypothesis `hnorm`, i.e. each item's link is a
string or falsy and its hashtags is an array of strings, null or missing —
every item, warned or not, is kept in `news_items`: the extractor returns all
of them normalized in place (only the top-3 truncation removes items), the
j-th survivor is exactly the normalization of the j-th input item, and the
publisher, run on the extractor's output, still attempts to publish it.  An
item whose normalization does throw instead aborts the whole extraction (see
the counterexample), so nothing is kept or published on that path. -/
theorem spec_C5_malformed_items_kept (aiNews : Json) (xs ys : List Json)
    (tw : Nat → Option PostId)
    (hitems : aiNews.getField keyNewsItems = some (.arr xs))
    (hintro : jsTruthy (aiNews.getField keyIntro) = true)
    (houtro : jsTruthy (aiNews.getField keyOutro) = true)
    (hnorm : mapExceptJson Part001.normalizeItemJson xs = .ok ys)
    (j : Nat) (hj : j < min Part001.TWEET_LIMIT xs.length)
    (hsucc : ∀ n, (tw n).isSome = true) :
    Part001.processAiNews aiNews
      = .ok (aiNews.setField keyNewsItems (.arr (ys.take Part001.TWEET_LIMIT))) ∧
    Part001.normalizeItemJson (xs.get ⟨j, lt_of_lt_of_le hj (min_le_right _ _)⟩)
      = .ok ((ys.take Part001.TWEET_LIMIT).get
          ⟨j, by
            rw [List.length_take,
              mapExceptJson_ok_length Part001.normalizeItemJson xs ys hnorm]
            exact hj⟩) ∧
    ((Part001.postNewsToTwitter tw (aiNews.setField keyNewsItems
        (.arr (ys.take Part001.TWEET_LIMIT)))).1).map (fun (a : Attempt) => a.text)
      = Part001.introTweetText (aiNews.setField keyNewsItems
            (.arr (ys.take Part001.TWEET_LIMIT)))
        :: ((ys.take Part001.TWEET_LIMIT).map Part001.itemTweetText
            ++ [Part001.outroTweetText (aiNews.setField keyNewsItems
                  (.arr (ys.take Part001.TWEET_LIMIT)))]) := by
  have hlen : ys.length = xs.length :=
    mapExceptJson_ok_length Part001.normalizeItemJson xs ys hnorm
  refine ⟨part001_processAiNews_ok aiNews xs ys hitems hintro houtro hnorm, ?_, ?_⟩
  · have hx : j < xs.length := lt_of_lt_of_le hj (min_le_right _ _)
    have hy : j < ys.length := by omega
    have h1 := mapExceptJson_ok_get Part001.normalizeItemJson xs ys hnorm j hx hy
    rw [h1]
    congr 1
    simp [List.get_eq_getElem, List.getElem_take]
  · obtain ⟨fs, rfl⟩ := getField_some_obj aiNews keyNewsItems _ hitems
    have hk' : (newsItemsOf ((Json.obj fs).setField keyNewsItems
        (.arr (ys.take Part001.TWEET_LIMIT)))).length ≠ 0 := by
      rw [newsItemsOf_setField]
      simp only [List.length_take]
      omega
    have h := (part001_run_all_success tw _ hsucc hk').1
    rw [newsItemsOf_setField] at h
    exact h

theorem spec_C5_malformed_items_kept_witness :
    Part001.processAiNews bundleC5
      = .ok (bundleC5.setField keyNewsItems
          (.arr ([itemNoTitleNorm, itemEmptyTags].take Part001.TWEET_LIMIT))) ∧
    Part001.normalizeItemJson itemNoTitle
      = .ok (([itemNoTitleNorm, itemEmptyTags].take Part001.TWEET_LIMIT).get
          ⟨0, by decide⟩) :=
  ⟨(spec_C5_malformed_items_kept bundleC5 [itemNoTitle, itemEmptyTags]
      [itemNoTitleNorm, itemEmptyTags] twAllOk rfl rfl rfl rfl
      0 (by decide) (fun n => rfl)).1,
   (spec_C5_malformed_items_kept bundleC5 [itemNoTitle, itemEmptyTags]
      [itemNoTitleNorm, itemEmptyTags] twAllOk rfl rfl rfl rfl
      0 (by decide) (fun n => rfl)).2.1⟩
